import Mathlib

/-!
Verification development for the `calco` cost-accounting pipeline.

The two engines verified here are shallow embeddings of
`src/calculadora_margen/services/cost_calculator.py` (class `CostCalculator`)
and `src/calculadora_margen/services/outliers_manager.py` (class
`OutliersManager`), over lists of records.  Pandas conventions that matter are
embedded explicitly:

* a nullable float column is `Option ℚ` (`none` plays the role of `NaN`);
* `groupby(key)` partitions the rows by key and concatenates the groups in
  ascending key order (pandas sorts group keys by default);
* `Series.sum()` and `groupby(...).sum()` skip `NaN` values (`min_count=0`),
  so a sum over missing values is `0`, never `NaN`;
* `Series.mean()` / `Series.std()` skip `NaN`; the sample standard deviation
  of fewer than two values is `NaN`, and any comparison with `NaN` is false.
-/

/-- Insert `a` into `l` before the first element `b` with `le a b`. -/
def sortInsert {α : Type} (le : α → α → Bool) (a : α) : List α → List α
  | [] => [a]
  | b :: l => if le a b then a :: b :: l else b :: sortInsert le a l

/-- Insertion sort by the boolean relation `le`. -/
def sortLe {α : Type} (le : α → α → Bool) (l : List α) : List α :=
  l.foldr (sortInsert le) []

/-- Boolean order on strings, via the core `Ord String` instance. -/
def strLe (a b : String) : Bool :=
  match compare a b with
  | Ordering.gt => false
  | _ => true

/-- Lexicographic boolean order on string pairs. -/
def pairLe (a b : String × String) : Bool :=
  match compare a.1 b.1 with
  | Ordering.lt => true
  | Ordering.gt => false
  | Ordering.eq => strLe a.2 b.2

/-- The group keys produced by `DataFrame.groupby`: the distinct keys of the
rows, in ascending order (pandas sorts group keys by default). -/
def groupKeys {κ : Type} [DecidableEq κ] (le : κ → κ → Bool) (ks : List κ) : List κ :=
  sortLe le ks.dedup

/-- A row of the `fabricaciones` consumption table
(see `Parameters.fabricaciones` in `config/parameters.py`, plus the
`flag_coste_calculado` column added by `CostCalculator.__init__`). -/
structure FabRow where
  id_orden : String
  fecha_fabricacion : String
  articulo : String
  lote_articulo : String
  unidades_fabricadas : ℚ
  componente : String
  lote_componente : String
  consumo_unitario : ℚ
  consumo_total : ℚ
  coste_componente_unitario : Option ℚ
  flag_coste_calculado : Bool

deriving instance DecidableEq, Repr for FabRow

/-- `CostCalculator.__init__`: copy the table and initialise
`flag_coste_calculado` as the negation of `componente.str.startswith('SEM')`
(components that do not start with `SEM` already have their cost). -/
def CostCalculator.init (fabricaciones : List FabRow) : List FabRow :=
  fabricaciones.map (fun r =>
    { r with flag_coste_calculado := !(r.componente.startsWith "SEM") })

/-- `self.fabricaciones['coste_componente_unitario'].isna().sum()`. -/
def countNulos (t : List FabRow) : Nat :=
  (t.filter (fun r => r.coste_componente_unitario.isNone)).length

/-- The data `calcular_costes_recursivamente` inspects to find calculable
products: per row, `(articulo, lote_articulo, coste notna)`. -/
def resolveSig (t : List FabRow) : List (String × String × Bool) :=
  t.map (fun r => (r.articulo, r.lote_articulo, r.coste_componente_unitario.isSome))

/-- `groupby(['articulo','lote_articulo']).agg(notna().all())` filtered to the
groups where every row has a non-null cost, expressed on the signature list. -/
def calculablesOfSig (s : List (String × String × Bool)) : List (String × String) :=
  (groupKeys pairLe (s.map (fun x => (x.1, x.2.1)))).filter
    (fun k => (s.filter (fun x => decide (x.1 = k.1) && decide (x.2.1 = k.2))).all
      (fun x => x.2.2))

/-- The `calculables` product instances of one iteration of
`calcular_costes_recursivamente` (lines 76-85 of `cost_calculator.py`). -/
def CostCalculator.calculables (t : List FabRow) : List (String × String) :=
  calculablesOfSig (resolveSig t)

/-- `(componentes_producto['consumo_unitario'] *
componentes_producto['coste_componente_unitario']).sum()`: the product of a
`NaN` cost is `NaN`, and `Series.sum()` skips `NaN` terms. -/
def CostCalculator.costeTotal (t : List FabRow) (articulo lote : String) : ℚ :=
  ((t.filter (fun r => decide (r.articulo = articulo) && decide (r.lote_articulo = lote))).filterMap
    (fun r => r.coste_componente_unitario.map (fun c => r.consumo_unitario * c))).sum

/-- `CostCalculator._calcular_coste_producto`: compute the total cost of the
`(articulo, lote_articulo)` instance, then write it into
`coste_componente_unitario` of every row whose `componente` equals this
`articulo` (the `if mask.any()` guard of the source is kept). -/
def CostCalculator.calcularCosteProducto (t : List FabRow) (articulo lote : String) :
    List FabRow :=
  if t.any (fun r => decide (r.componente = articulo)) then
    t.map (fun r =>
      if r.componente = articulo then
        { r with coste_componente_unitario := some (CostCalculator.costeTotal t articulo lote),
                 flag_coste_calculado := true }
      else r)
  else t

/-- One executed iteration of the `for` loop of
`calcular_costes_recursivamente`: process every calculable product in group
order, then recompute `flag_coste_calculado` from the cost column (line 92). -/
def CostCalculator.iteracion (t : List FabRow) : List FabRow :=
  ((CostCalculator.calculables t).foldl
      (fun acc k => CostCalculator.calcularCosteProducto acc k.1 k.2) t).map
    (fun r => { r with flag_coste_calculado := r.coste_componente_unitario.isSome })

/-- `nulos_actual >= nulos_anterior`, where `none` stands for the initial
`float('inf')`. -/
def prevGe : Option Nat → Nat → Bool
  | none, _ => false
  | some p, n => decide (p ≤ n)

/-- The `for i in range(max_iteraciones)` loop of
`calcular_costes_recursivamente`; returns the final table together with the
number of loop bodies that were executed. -/
def CostCalculator.loop : Nat → Option Nat → List FabRow → List FabRow × Nat
  | 0, _, t => (t, 0)
  | fuel + 1, prev, t =>
    let nulos := countNulos t
    if nulos = 0 then (t, 0)
    else if prevGe prev nulos then (t, 0)
    else
      let r := CostCalculator.loop fuel (some nulos) (CostCalculator.iteracion t)
      (r.1, r.2 + 1)

/-- `CostCalculator.calcular_costes_recursivamente` (default
`max_iteraciones = 6`): the bounded fixed-point loop.  The function is total:
it never raises, it returns the partially resolved table. -/
def CostCalculator.calcularCostesRecursivamente (t : List FabRow) (maxIteraciones : Nat) :
    List FabRow × Nat :=
  CostCalculator.loop maxIteraciones none t

/-- The numbers printed by `CostCalculator._print_concise_summary`. -/
structure ResumenFinal where
  total : Nat
  sinCoste : Nat
  conCoste : Nat

deriving instance DecidableEq, Repr for ResumenFinal

/-- `CostCalculator._print_concise_summary` as a queryable record. -/
def CostCalculator.resumenFinal (t : List FabRow) : ResumenFinal :=
  { total := t.length, sinCoste := countNulos t, conCoste := t.length - countNulos t }

/-- A row of the order-level summary produced by
`CostCalculator.generar_costes_fabricacion`. -/
structure CosteFabRow where
  id_orden : String
  fecha_fabricacion : String
  articulo : String
  unidades_fabricadas : ℚ
  coste_unitario : ℚ

deriving instance DecidableEq, Repr for CosteFabRow

/-- The grouping key of `generar_costes_fabricacion`. -/
def ordenKey (r : FabRow) : String × String × String × ℚ :=
  (r.id_orden, r.fecha_fabricacion, r.articulo, r.unidades_fabricadas)

/-- Lexicographic boolean order on the four-part grouping key. -/
def ordenKeyLe (a b : String × String × String × ℚ) : Bool :=
  match compare a.1 b.1 with
  | Ordering.lt => true
  | Ordering.gt => false
  | Ordering.eq =>
    match compare a.2.1 b.2.1 with
    | Ordering.lt => true
    | Ordering.gt => false
    | Ordering.eq =>
      match compare a.2.2.1 b.2.2.1 with
      | Ordering.lt => true
      | Ordering.gt => false
      | Ordering.eq => decide (a.2.2.2 ≤ b.2.2.2)

/-- `Series.sum()` over a nullable column: `NaN` entries are skipped
(`skipna=True`, the pandas default for `sum` and `groupby(...).sum()`), so the
result is always a number, `0` when every entry is missing. -/
def sumSkipna (l : List (Option ℚ)) : ℚ := (l.filterMap id).sum

/-- `CostCalculator.generar_costes_fabricacion`: warn (a printed ADVERTENCIA,
returned here as a boolean flag) when some cost is still null, build
`coste_unitario = coste_componente_unitario * consumo_unitario` (null
propagates through the product), group by
`(id_orden, fecha_fabricacion, articulo, unidades_fabricadas)`, sum the
`coste_unitario` column per group (skipping nulls, as pandas does) and sort
ascending by `fecha_fabricacion`. -/
def CostCalculator.generarCostesFabricacion (t : List FabRow) : Bool × List CosteFabRow :=
  let advertencia := t.any (fun r => r.coste_componente_unitario.isNone)
  let keys := groupKeys ordenKeyLe (t.map ordenKey)
  let filas : List CosteFabRow := keys.map (fun k =>
    { id_orden := k.1
      fecha_fabricacion := k.2.1
      articulo := k.2.2.1
      unidades_fabricadas := k.2.2.2
      coste_unitario := sumSkipna ((t.filter (fun r => decide (ordenKey r = k))).map
        (fun r => r.coste_componente_unitario.map (fun c => c * r.consumo_unitario))) })
  (advertencia, sortLe (fun a b => strLe a.fecha_fabricacion b.fecha_fabricacion) filas)

/-- The fields of `DatasetParams` (`config/parameters.py`) that the outliers
engine reads.  The cleaning/validation and visualization fields of the source
dataclass configure out-of-scope collaborators and are omitted.  Defaults in
the source: `z_score = 3.0`, `min_threshold = 5`, `max_iterations = 20`. -/
structure DatasetParams where
  outliers_value_column : Option String
  outliers_group_column : Option String
  outliers_z_score : ℚ
  outliers_min_threshold : Int
  outliers_max_iterations : Nat

deriving instance DecidableEq, Repr for DatasetParams

/-- A row of the table handled by `OutliersManager`: the grouping column and
the nullable value column (the roles that `outliers_group_column` and
`outliers_value_column` select; the embedding fixes them in the schema). -/
structure ORow where
  grupo : String
  valor : Option ℚ

deriving instance DecidableEq, Repr for ORow

/-- An `ORow` extended with the transient `is_outlier` column added by
`_detect_outliers_by_group`.  The transient `z_score` column is not
materialised: its value `(x - μ) / σ` is irrational in general, and the only
observable use the source makes of it is the comparison
`z_score.abs() > threshold`, which `is_outlier` records. -/
structure ODRow where
  grupo : String
  valor : Option ℚ
  is_outlier : Bool

deriving instance DecidableEq, Repr for ODRow

/-- Mean of a list of rationals (`0` on the empty list, like `0/0`). -/
def qmean (l : List ℚ) : ℚ := l.sum / (l.length : ℚ)

/-- Sample variance (`ddof = 1`, as `Series.std()` uses); only meaningful for
two or more values, which is the only way the detection code uses it. -/
def qvar (l : List ℚ) : ℚ :=
  (l.map (fun x => (x - qmean l) ^ 2)).sum / ((l.length : ℚ) - 1)

/-- `Series.mean()` over a nullable column: skip nulls, `NaN` (here `none`)
when no value remains. -/
def omean (l : List (Option ℚ)) : Option ℚ :=
  let v := l.filterMap id
  if v.length = 0 then none else some (qmean v)

/-- `OutliersManager._detect_outliers_by_group` (the identical computation
also appears in `cleaning/outliers_manager.py`): compute the mean `μ` and the
sample standard deviation `σ` of the value column (both skip `NaN`).  If
`σ == 0` (possible only with at least two values), set `is_outlier = False`
for the whole group (and `z_score = 0`).  Otherwise `z = (x - μ) / σ` and the
row is an outlier iff `|z| > τ`.  `NaN` propagation in the source: with fewer
than two values `σ` is `NaN`, so `σ == 0` is false and `|z| > τ` is false; a
row with a `NaN` value has a `NaN` z-score, and `|NaN| > τ` is false.  For
`σ > 0` the comparison `|z| > τ` is encoded without square roots as
`τ < 0 ∨ (x - μ)² > τ² · σ²`, which is equivalent for every real `τ`. -/
def OutliersManager.detectarGrupo (p : DatasetParams) (g : List ORow) : List ODRow :=
  let vals := g.filterMap (fun r => r.valor)
  let n := vals.length
  if 2 ≤ n ∧ qvar vals = 0 then
    g.map (fun r => { grupo := r.grupo, valor := r.valor, is_outlier := false })
  else
    g.map (fun r =>
      { grupo := r.grupo, valor := r.valor,
        is_outlier :=
          match r.valor with
          | none => false
          | some x =>
            decide (2 ≤ n) &&
              (decide (p.outliers_z_score < 0) ||
                decide (p.outliers_z_score ^ 2 * qvar vals < (x - qmean vals) ^ 2)) })

/-- `OutliersManager._detect_outliers`: group the table by the grouping
column (pandas iterates the groups in ascending key order), annotate each
group, and concatenate (`ignore_index=True`). -/
def OutliersManager.detectar (p : DatasetParams) (df : List ORow) : List ODRow :=
  (groupKeys strLe (df.map (fun r => r.grupo))).flatMap
    (fun k => OutliersManager.detectarGrupo p (df.filter (fun r => decide (r.grupo = k))))

/-- `self.df['is_outlier'].sum()`. -/
def cuentaOutliers (t : List ODRow) : Nat :=
  (t.filter (fun r => r.is_outlier)).length

/-- `without_outliers.groupby(group)[value].mean()`: one entry per group key
present among the clean rows; the mean skips nulls and is `none` when every
value of the group is null. -/
def mediasLimpias (clean : List ODRow) : List (String × Option ℚ) :=
  (groupKeys strLe (clean.map (fun r => r.grupo))).map
    (fun k => (k, omean ((clean.filter (fun r => decide (r.grupo = k))).map (fun r => r.valor))))

/-- `Series.map(medias_limpias)`: a key absent from the mean table maps to
`NaN` (here `none`). -/
def buscarMedia (ms : List (String × Option ℚ)) (g : String) : Option ℚ :=
  match ms.find? (fun kv => decide (kv.1 = g)) with
  | none => none
  | some kv => kv.2

/-- Lines 117-131 of `process_outliers`: split the table into clean rows and
outlier rows, replace each outlier value by its group's clean mean, and
recombine clean rows followed by corrected rows. -/
def OutliersManager.pasoCorreccion (t : List ODRow) : List ODRow :=
  let limpio := t.filter (fun r => !r.is_outlier)
  let outs := t.filter (fun r => r.is_outlier)
  let ms := mediasLimpias limpio
  limpio ++ outs.map (fun r => { r with valor := buscarMedia ms r.grupo })

/-- `OutliersManager.clean_columns`: drop the transient `z_score` and
`is_outlier` columns. -/
def quitarColumnas (t : List ODRow) : List ORow :=
  t.map (fun r => { grupo := r.grupo, valor := r.valor })

/-- The `while sum_outliers > min_threshold and count < max_iterations` loop
of `process_outliers`, with `fuel = max_iterations - count`.  Returns the
final table, the number of times `count` was incremented, and the number of
correction passes that re-ran detection (the body breaks without either when
the outlier set is empty, which happens when `sum_outliers = 0` but the
threshold is negative). -/
def OutliersManager.loop (p : DatasetParams) : Nat → List ODRow → List ODRow × Nat × Nat
  | 0, t => (t, 0, 0)
  | fuel + 1, t =>
    if (cuentaOutliers t : Int) > p.outliers_min_threshold then
      if (t.filter (fun r => r.is_outlier)).isEmpty then (t, 1, 0)
      else
        let t2 := OutliersManager.detectar p (quitarColumnas (OutliersManager.pasoCorreccion t))
        let r := OutliersManager.loop p fuel t2
        (r.1, r.2.1 + 1, r.2.2 + 1)
    else (t, 0, 0)

/-- The counters of the summary dictionary kept by `OutliersManager`
(`initial_outliers`, `replaced_outliers`, `remaining_outliers`; the
`remaining_outliers_info` detail list drives only reporting and is not
modelled). -/
structure OutSummary where
  initial_outliers : Nat
  replaced_outliers : Int
  remaining_outliers : Nat

deriving instance DecidableEq, Repr for OutSummary

/-- The caller-observable outcome of `process_outliers`: the table held in
`self.df`, the summary counters, the number of `while`-loop iterations, and
the number of `_detect_outliers` calls performed. -/
structure OutResult where
  df : List ODRow
  summary : OutSummary
  iteraciones : Nat
  detecciones : Nat

deriving instance DecidableEq, Repr for OutResult

/-- Python truthiness of an optional string: `None` and the empty string are
falsy. -/
def pyFalsy : Option String → Bool
  | none => true
  | some s => s.isEmpty

/-- `OutliersManager.__init__`: raise
`ValueError("Los parámetros de outliers son requeridos")` — the spec's
`ConfigurationError` — when `not params.outliers_value_column or not
params.outliers_group_column`; otherwise store a copy of the table. -/
def OutliersManager.inicializar (df : List ORow) (p : DatasetParams) :
    Except String (List ORow) :=
  if pyFalsy p.outliers_value_column || pyFalsy p.outliers_group_column then
    Except.error "Los parámetros de outliers son requeridos"
  else Except.ok df

/-- `OutliersManager.process_outliers`: run the initial detection, record the
initial outlier count, run the bounded correction loop, and fill in the
summary counters. -/
def OutliersManager.processOutliers (df : List ORow) (p : DatasetParams) : OutResult :=
  let d0 := OutliersManager.detectar p df
  let ini := cuentaOutliers d0
  let r := OutliersManager.loop p p.outliers_max_iterations d0
  { df := r.1
    summary :=
      { initial_outliers := ini
        replaced_outliers := (ini : Int) - (cuentaOutliers r.1 : Int)
        remaining_outliers := cuentaOutliers r.1 }
    iteraciones := r.2.1
    detecciones := r.2.2 + 1 }

/-- `process_outliers` followed by `clean_columns`, the pipeline an engine
caller observes. -/
def OutliersManager.processAndClean (df : List ORow) (p : DatasetParams) : List ORow :=
  quitarColumnas (OutliersManager.processOutliers df p).df

/-- Whether the row at index `i` (if any) has a null
`coste_componente_unitario`. -/
def costeNullAt (t : List FabRow) (i : Nat) : Bool :=
  match t[i]? with
  | some r => r.coste_componente_unitario.isNone
  | none => false

/-- `aplicarProductos ps t` is the inner `for _, producto in
calculables.iterrows()` loop of `calcular_costes_recursivamente`: process the
product instances in order on the evolving table. -/
def aplicarProductos (ps : List (String × String)) (t : List FabRow) : List FabRow :=
  ps.foldl (fun acc k => CostCalculator.calcularCosteProducto acc k.1 k.2) t

/- ------------------------------------------------------------------ -/
/- Generic lemmas about the group-by helpers.                          -/
/- ------------------------------------------------------------------ -/

theorem sortInsert_perm {α : Type} (le : α → α → Bool) (a : α) :
    ∀ l : List α, List.Perm (sortInsert le a l) (a :: l) := by
  intro l
  induction l with
  | nil => simp [sortInsert]
  | cons b l ih =>
    by_cases h : le a b = true
    · simp [sortInsert, h]
    · simp only [sortInsert, h, if_false, Bool.false_eq_true]
      exact (ih.cons b).trans (List.Perm.swap a b l)

theorem sortLe_perm {α : Type} (le : α → α → Bool) :
    ∀ l : List α, List.Perm (sortLe le l) l := by
  intro l
  induction l with
  | nil => simp [sortLe]
  | cons a l ih =>
    have : sortLe le (a :: l) = sortInsert le a (sortLe le l) := rfl
    rw [this]
    exact (sortInsert_perm le a (sortLe le l)).trans (ih.cons a)

theorem mem_sortLe {α : Type} (le : α → α → Bool) (a : α) (l : List α) :
    a ∈ sortLe le l ↔ a ∈ l :=
  (sortLe_perm le l).mem_iff

theorem mem_groupKeys {κ : Type} [DecidableEq κ] (le : κ → κ → Bool) (k : κ) (ks : List κ) :
    k ∈ groupKeys le ks ↔ k ∈ ks := by
  unfold groupKeys
  rw [mem_sortLe, List.mem_dedup]

theorem groupKeys_nodup {κ : Type} [DecidableEq κ] (le : κ → κ → Bool) (ks : List κ) :
    (groupKeys le ks).Nodup :=
  ((sortLe_perm le ks.dedup).symm.nodup ks.nodup_dedup)

theorem flatMap_filter_perm {α κ : Type} [DecidableEq κ] (key : α → κ) :
    ∀ (keys : List κ) (l : List α), keys.Nodup → (∀ a ∈ l, key a ∈ keys) →
      List.Perm (keys.flatMap (fun k => l.filter (fun a => decide (key a = k)))) l := by
  intro keys
  induction keys with
  | nil =>
    intro l _ hcov
    have : l = [] := List.eq_nil_iff_forall_not_mem.mpr (fun a ha => by simp at *; exact hcov a ha)
    simp [this]
  | cons k ks ih =>
    intro l hnd hcov
    have hk : k ∉ ks := (List.nodup_cons.mp hnd).1
    have hnd' : ks.Nodup := (List.nodup_cons.mp hnd).2
    rw [List.flatMap_cons]
    have hcong : ∀ k2 ∈ ks,
        l.filter (fun a => decide (key a = k2)) =
          (l.filter (fun a => !decide (key a = k))).filter (fun a => decide (key a = k2)) := by
      intro k2 hk2
      rw [List.filter_filter]
      apply List.filter_congr
      intro a _
      have hne : k2 ≠ k := fun hc => hk (hc ▸ hk2)
      by_cases h : key a = k2
      · have hnk : key a ≠ k := fun hc => hne (h.symm.trans hc)
        simp [h, hnk, hne]
      · simp [h]
    have hmap : ks.map (fun k2 => l.filter (fun a => decide (key a = k2))) =
        ks.map (fun k2 => (l.filter (fun a => !decide (key a = k))).filter
          (fun a => decide (key a = k2))) :=
      List.map_congr_left hcong
    rw [List.flatMap, hmap, ← List.flatMap]
    have hcov' : ∀ a ∈ l.filter (fun a => !decide (key a = k)), key a ∈ ks := by
      intro a ha
      rcases List.mem_filter.mp ha with ⟨hal, hne⟩
      rcases List.mem_cons.mp (hcov a hal) with h | h
      · simp [h] at hne
      · exact h
    have := ih (l.filter (fun a => !decide (key a = k))) hnd' hcov'
    exact ((this.append_left (l.filter (fun a => decide (key a = k)))).trans
      (List.filter_append_perm (fun a => decide (key a = k)) l))

theorem groupKeys_flatMap_perm {α κ : Type} [DecidableEq κ] (key : α → κ)
    (le : κ → κ → Bool) (l : List α) :
    List.Perm ((groupKeys le (l.map key)).flatMap
      (fun k => l.filter (fun a => decide (key a = k)))) l := by
  apply flatMap_filter_perm key
  · exact groupKeys_nodup le (l.map key)
  · intro a ha
    rw [mem_groupKeys]
    exact List.mem_map_of_mem key ha

theorem find?_keys_map {κ β : Type} [DecidableEq κ] (f : κ → β) (g : κ) :
    ∀ keys : List κ,
      (keys.map (fun k => (k, f k))).find? (fun kv => decide (kv.1 = g)) =
        if g ∈ keys then some (g, f g) else none := by
  intro keys
  induction keys with
  | nil => simp
  | cons k ks ih =>
    by_cases h : k = g
    · subst h
      simp [List.find?_cons_of_pos]
    · rw [List.map_cons, List.find?_cons_of_neg _ (by simp [h]), ih]
      have : (g ∈ k :: ks) ↔ (g ∈ ks) := by
        simp [List.mem_cons]
        intro hc
        exact absurd hc.symm h
      simp only [this]

/- ------------------------------------------------------------------ -/
/- Lemmas about the cost propagator.                                   -/
/- ------------------------------------------------------------------ -/

theorem calcularCosteProducto_eq_map (t : List FabRow) (a l : String) :
    CostCalculator.calcularCosteProducto t a l =
      t.map (fun r =>
        if r.componente = a then
          { r with coste_componente_unitario := some (CostCalculator.costeTotal t a l),
                   flag_coste_calculado := true }
        else r) := by
  unfold CostCalculator.calcularCosteProducto
  by_cases h : t.any (fun r => decide (r.componente = a)) = true
  · rw [if_pos h]
  · rw [if_neg h]
    have hne : ∀ r ∈ t, r.componente ≠ a := by
      intro r hr hc
      exact h (List.any_eq_true.mpr ⟨r, hr, by simp [hc]⟩)
    have : t.map (fun r =>
        if r.componente = a then
          { r with coste_componente_unitario := some (CostCalculator.costeTotal t a l),
                   flag_coste_calculado := true }
        else r) = t.map (fun r => r) :=
      List.map_congr_left (fun r hr => if_neg (hne r hr))
    rw [this, List.map_id']

theorem aplicarProductos_componente (ps : List (String × String)) :
    ∀ t : List FabRow,
      (aplicarProductos ps t).map (fun r => r.componente) = t.map (fun r => r.componente) := by
  induction ps with
  | nil => intro t; rfl
  | cons k ps ih =>
    intro t
    have h1 : aplicarProductos (k :: ps) t =
        aplicarProductos ps (CostCalculator.calcularCosteProducto t k.1 k.2) := rfl
    rw [h1, ih, calcularCosteProducto_eq_map, List.map_map]
    apply List.map_congr_left
    intro r _
    by_cases h : r.componente = k.1 <;> simp [h]

theorem aplicarProductos_isSome (ps : List (String × String)) :
    ∀ t : List FabRow,
      (aplicarProductos ps t).map (fun r => r.coste_componente_unitario.isSome) =
        t.map (fun r => r.coste_componente_unitario.isSome ||
          ps.any (fun k => decide (k.1 = r.componente))) := by
  induction ps with
  | nil =>
    intro t
    simp [aplicarProductos]
  | cons k ps ih =>
    intro t
    have h1 : aplicarProductos (k :: ps) t =
        aplicarProductos ps (CostCalculator.calcularCosteProducto t k.1 k.2) := rfl
    rw [h1, ih, calcularCosteProducto_eq_map, List.map_map]
    apply List.map_congr_left
    intro r _
    by_cases h : r.componente = k.1
    · simp [h]
    · have : ¬(k.1 = r.componente) := fun hc => h hc.symm
      simp [h, this]

theorem iteracion_isSome (t : List FabRow) :
    (CostCalculator.iteracion t).map (fun r => r.coste_componente_unitario.isSome) =
      t.map (fun r => r.coste_componente_unitario.isSome ||
        (CostCalculator.calculables t).any (fun k => decide (k.1 = r.componente))) := by
  have h1 : CostCalculator.iteracion t =
      (aplicarProductos (CostCalculator.calculables t) t).map
        (fun r => { r with flag_coste_calculado := r.coste_componente_unitario.isSome }) := rfl
  rw [h1, List.map_map]
  exact aplicarProductos_isSome (CostCalculator.calculables t) t

theorem costeNullAt_iteracion_mono (t : List FabRow) (i : Nat)
    (h : costeNullAt (CostCalculator.iteracion t) i = true) : costeNullAt t i = true := by
  have hmap := congrArg (fun u => u[i]?) (iteracion_isSome t)
  simp only [List.getElem?_map] at hmap
  cases heq : t[i]? with
  | none =>
    rw [heq] at hmap
    simp only [Option.map_none'] at hmap
    cases heq2 : (CostCalculator.iteracion t)[i]? with
    | none => simp [costeNullAt, heq2] at h
    | some r => rw [heq2] at hmap; simp at hmap
  | some r =>
    rw [heq] at hmap
    cases heq2 : (CostCalculator.iteracion t)[i]? with
    | none => rw [heq2] at hmap; simp at hmap
    | some r2 =>
      rw [heq2] at hmap
      simp only [Option.map_some', Option.some.injEq] at hmap
      simp only [costeNullAt, heq2, Option.isNone_iff_eq_none] at h
      simp only [costeNullAt, heq, Option.isNone_iff_eq_none]
      have h2 : r2.coste_componente_unitario.isSome = false := by
        rw [h]; rfl
      rw [h2] at hmap
      have := (Bool.or_eq_false_iff.mp hmap.symm).1
      exact Option.not_isSome_iff_eq_none.mp (by rw [this]; simp)

theorem costeNullAt_iterate_mono (t : List FabRow) (i : Nat) :
    ∀ m k, k ≤ m → costeNullAt (CostCalculator.iteracion^[m] t) i = true →
      costeNullAt (CostCalculator.iteracion^[k] t) i = true := by
  intro m
  induction m with
  | zero =>
    intro k hk h
    rw [Nat.le_zero.mp hk]
    exact h
  | succ m ih =>
    intro k hk h
    rcases Nat.lt_or_ge k (m + 1) with hlt | hge
    · apply ih k (Nat.lt_succ_iff.mp hlt)
      rw [Function.iterate_succ_apply'] at h
      exact costeNullAt_iteracion_mono _ i h
    · have : k = m + 1 := Nat.le_antisymm hk hge
      rw [this]
      exact h

theorem countNulos_pos_of_null (t : List FabRow) (i : Nat)
    (h : costeNullAt t i = true) : 0 < countNulos t := by
  cases heq : t[i]? with
  | none => simp [costeNullAt, heq] at h
  | some r =>
    simp only [costeNullAt, heq] at h
    have hmem : r ∈ t := List.getElem?_mem heq
    have : r ∈ t.filter (fun r => r.coste_componente_unitario.isNone) :=
      List.mem_filter.mpr ⟨hmem, h⟩
    exact List.length_pos.mpr (List.ne_nil_of_mem this)

theorem loop_iterate (fuel : Nat) :
    ∀ (prev : Option Nat) (t : List FabRow),
      (CostCalculator.loop fuel prev t).1 =
        CostCalculator.iteracion^[(CostCalculator.loop fuel prev t).2] t ∧
      (CostCalculator.loop fuel prev t).2 ≤ fuel := by
  induction fuel with
  | zero => intro prev t; exact ⟨rfl, Nat.le_refl 0⟩
  | succ fuel ih =>
    intro prev t
    have hunf : CostCalculator.loop (fuel + 1) prev t =
        (if countNulos t = 0 then (t, 0)
          else if prevGe prev (countNulos t) = true then (t, 0)
          else
            ((CostCalculator.loop fuel (some (countNulos t)) (CostCalculator.iteracion t)).1,
              (CostCalculator.loop fuel (some (countNulos t)) (CostCalculator.iteracion t)).2 + 1)) :=
      rfl
    rw [hunf]
    by_cases h0 : countNulos t = 0
    · rw [if_pos h0]
      exact ⟨rfl, Nat.zero_le _⟩
    · rw [if_neg h0]
      by_cases h1 : prevGe prev (countNulos t) = true
      · rw [if_pos h1]
        exact ⟨rfl, Nat.zero_le _⟩
      · rw [if_neg h1]
        have hih := ih (some (countNulos t)) (CostCalculator.iteracion t)
        refine ⟨?_, Nat.succ_le_succ hih.2⟩
        show (CostCalculator.loop fuel (some (countNulos t)) (CostCalculator.iteracion t)).1 =
          CostCalculator.iteracion^[(CostCalculator.loop fuel (some (countNulos t))
            (CostCalculator.iteracion t)).2 + 1] t
        rw [Function.iterate_succ_apply]
        exact hih.1

theorem sumSkipna_eq_getD (l : List (Option ℚ)) :
    sumSkipna l = (l.map (fun o => o.getD 0)).sum := by
  induction l with
  | nil => simp [sumSkipna]
  | cons o l ih =>
    cases o with
    | none => simpa [sumSkipna, List.filterMap_cons] using ih
    | some x => simpa [sumSkipna, List.filterMap_cons] using congrArg (x + ·) ih

/- ------------------------------------------------------------------ -/
/- Lemmas about the outliers engine.                                   -/
/- ------------------------------------------------------------------ -/

theorem buscarMedia_mediasLimpias (clean : List ODRow) (g : String) :
    buscarMedia (mediasLimpias clean) g =
      omean ((clean.filter (fun r => decide (r.grupo = g))).map (fun r => r.valor)) := by
  unfold buscarMedia mediasLimpias
  rw [find?_keys_map]
  by_cases h : g ∈ groupKeys strLe (clean.map (fun r => r.grupo))
  · rw [if_pos h]
  · rw [if_neg h]
    have hfil : clean.filter (fun r => decide (r.grupo = g)) = [] := by
      rw [List.filter_eq_nil_iff]
      intro r hr
      simp only [decide_eq_true_eq]
      intro hc
      exact h ((mem_groupKeys _ _ _).mpr (hc ▸ List.mem_map_of_mem (fun x => x.grupo) hr))
    rw [hfil]
    rfl

theorem quitarColumnas_detectarGrupo (p : DatasetParams) (g : List ORow) :
    quitarColumnas (OutliersManager.detectarGrupo p g) = g := by
  unfold quitarColumnas OutliersManager.detectarGrupo
  by_cases h : 2 ≤ (g.filterMap (fun r => r.valor)).length ∧ qvar (g.filterMap (fun r => r.valor)) = 0
  · rw [if_pos h, List.map_map]
    exact List.map_id' g
  · rw [if_neg h, List.map_map]
    exact List.map_id' g

theorem quitarColumnas_detectar_perm (p : DatasetParams) (df : List ORow) :
    List.Perm (quitarColumnas (OutliersManager.detectar p df)) df := by
  show List.Perm (List.map _ (OutliersManager.detectar p df)) df
  unfold OutliersManager.detectar
  rw [List.map_flatMap]
  have hcong : (groupKeys strLe (df.map (fun r => r.grupo))).map
      (fun k => (OutliersManager.detectarGrupo p
        (df.filter (fun r => decide (r.grupo = k)))).map
          (fun r => ({ grupo := r.grupo, valor := r.valor } : ORow))) =
      (groupKeys strLe (df.map (fun r => r.grupo))).map
        (fun k => df.filter (fun r => decide (r.grupo = k))) :=
    List.map_congr_left (fun k _ => quitarColumnas_detectarGrupo p _)
  rw [List.flatMap, hcong, ← List.flatMap]
  exact groupKeys_flatMap_perm (fun r => r.grupo) strLe df

theorem outLoop_zero (p : DatasetParams) (t : List ODRow) :
    OutliersManager.loop p 0 t = (t, 0, 0) := rfl

theorem outLoop_succ (p : DatasetParams) (fuel : Nat) (t : List ODRow) :
    OutliersManager.loop p (fuel + 1) t =
      (if (cuentaOutliers t : Int) > p.outliers_min_threshold then
        if (t.filter (fun r => r.is_outlier)).isEmpty then (t, 1, 0)
        else
          ((OutliersManager.loop p fuel (OutliersManager.detectar p
            (quitarColumnas (OutliersManager.pasoCorreccion t)))).1,
           (OutliersManager.loop p fuel (OutliersManager.detectar p
            (quitarColumnas (OutliersManager.pasoCorreccion t)))).2.1 + 1,
           (OutliersManager.loop p fuel (OutliersManager.detectar p
            (quitarColumnas (OutliersManager.pasoCorreccion t)))).2.2 + 1)
      else (t, 0, 0)) := rfl

theorem outLoop_stop (p : DatasetParams) (fuel : Nat) (t : List ODRow)
    (h : (cuentaOutliers t : Int) ≤ p.outliers_min_threshold) :
    OutliersManager.loop p fuel t = (t, 0, 0) := by
  cases fuel with
  | zero => rfl
  | succ fuel =>
    rw [outLoop_succ, if_neg (not_lt.mpr h)]

theorem outLoop_zero_outliers (p : DatasetParams) (fuel : Nat) (t : List ODRow)
    (h : cuentaOutliers t = 0) :
    (OutliersManager.loop p fuel t).1 = t := by
  cases fuel with
  | zero => rfl
  | succ fuel =>
    rw [outLoop_succ]
    by_cases hg : (cuentaOutliers t : Int) > p.outliers_min_threshold
    · rw [if_pos hg]
      have hemp : (t.filter (fun r => r.is_outlier)).isEmpty = true := by
        have : t.filter (fun r => r.is_outlier) = [] :=
          List.length_eq_zero.mp h
        rw [this]
        rfl
      rw [if_pos hemp]
    · rw [if_neg hg]

/-- `pyFalsy` characterised: an optional string is Python-falsy exactly when
it is `None` or the empty string. -/
theorem pyFalsy_eq_true_iff (o : Option String) :
    pyFalsy o = true ↔ o = none ∨ o = some "" := by
  cases o with
  | none => simp [pyFalsy]
  | some s => simp [pyFalsy, String.isEmpty_iff]

theorem outLoop_le (p : DatasetParams) :
    ∀ (fuel : Nat) (t : List ODRow), (OutliersManager.loop p fuel t).2.1 ≤ fuel := by
  intro fuel
  induction fuel with
  | zero => intro t; exact Nat.le_refl 0
  | succ fuel ih =>
    intro t
    rw [outLoop_succ]
    by_cases hg : (cuentaOutliers t : Int) > p.outliers_min_threshold
    · rw [if_pos hg]
      by_cases hemp : (t.filter (fun r => r.is_outlier)).isEmpty = true
      · rw [if_pos hemp]
        exact Nat.succ_le_succ (Nat.zero_le fuel)
      · rw [if_neg hemp]
        exact Nat.succ_le_succ (ih _)
    · rw [if_neg hg]
      exact Nat.zero_le _

/- ------------------------------------------------------------------ -/
/- Claim theorems.                                                     -/
/- ------------------------------------------------------------------ -/

/-- C2, counterexample: after `CostCalculator.__init__` the resolved flag is
the prefix test `not componente.startswith('SEM')`, not a nullness test.  For
a table with one raw-material row (`componente = "MP01"`) whose
`coste_componente_unitario` is null, the constructed table has
`flag_coste_calculado = True` with a null cost, so the claimed invariant
"flag true iff cost non-null" is already false at the first caller-observable
point, right after construction. -/
theorem init_flag_invariant_cex :
    (CostCalculator.init
      [⟨"O1", "2024-01-01", "PT01", "L1", 1, "MP01", "LC1", 1, 1, none, false⟩]).all
      (fun r => r.flag_coste_calculado == r.coste_componente_unitario.isSome) = false := by
  with_unfolding_all decide

/-- C2, amended: the invariant `flag_coste_calculado = true` iff
`coste_componente_unitario` is non-null holds after every executed iteration
of the propagation loop body (line 92 recomputes the flag column from the
cost column), and hence in the returned table whenever at least one iteration
body ran.  After construction alone the flag is the `SEM`-prefix test, which
coincides with non-nullness only if the naming convention matches the data. -/
theorem flag_invariant_after_iteration :
    (∀ t : List FabRow, (CostCalculator.iteracion t).all
      (fun r => r.flag_coste_calculado == r.coste_componente_unitario.isSome) = true) ∧
    (∀ (t : List FabRow) (m : Nat),
      1 ≤ (CostCalculator.calcularCostesRecursivamente t m).2 →
      (CostCalculator.calcularCostesRecursivamente t m).1.all
        (fun r => r.flag_coste_calculado == r.coste_componente_unitario.isSome) = true) := by
  have hbody : ∀ t : List FabRow, (CostCalculator.iteracion t).all
      (fun r => r.flag_coste_calculado == r.coste_componente_unitario.isSome) = true := by
    intro t
    have h1 : CostCalculator.iteracion t =
        (aplicarProductos (CostCalculator.calculables t) t).map
          (fun r => { r with flag_coste_calculado := r.coste_componente_unitario.isSome }) := rfl
    rw [h1, List.all_map]
    apply List.all_eq_true.mpr
    intro r _
    simp
  refine ⟨hbody, ?_⟩
  intro t m h1
  have hspec := loop_iterate m none t
  have heq : (CostCalculator.calcularCostesRecursivamente t m).1 =
      CostCalculator.iteracion^[(CostCalculator.calcularCostesRecursivamente t m).2] t :=
    hspec.1
  rw [heq]
  obtain ⟨j, hj⟩ : ∃ j, (CostCalculator.calcularCostesRecursivamente t m).2 = j + 1 :=
    ⟨(CostCalculator.calcularCostesRecursivamente t m).2 - 1,
      (Nat.succ_pred_eq_of_pos h1).symm⟩
  rw [hj, Function.iterate_succ_apply']
  exact hbody _

/-- C2, witness for the amended theorem on the two-level BOM table, where one
iteration body runs. -/
theorem flag_invariant_after_iteration_witness :
    (CostCalculator.calcularCostesRecursivamente (CostCalculator.init
      [⟨"O1", "2024-01-01", "PT01", "LP1", 1, "SEM01", "LC1", 2, 2, none, false⟩,
       ⟨"O2", "2024-01-02", "SEM01", "LS1", 1, "MP01", "LC2", 3, 3, some 5, false⟩]) 6).1.all
      (fun r => r.flag_coste_calculado == r.coste_componente_unitario.isSome) = true :=
  flag_invariant_after_iteration.2 _ 6 (by with_unfolding_all decide)

/-- C4: on the two-level bill of materials — finished good `PT01` consumes
semi-finished `SEM01` (unit consumption 2, cost unknown), `SEM01` consumes raw
material `MP01` (unit consumption 3, unit cost 5) —
`calcular_costes_recursivamente` computes `SEM01`'s cost as 3 × 5 = 15,
writes 15 into `PT01`'s consumption row for `SEM01`, leaves
`flag_coste_calculado` true on every row, and executes exactly one loop body
beyond the initial state (the second pass only observes zero nulls and
stops). -/
theorem two_level_bom_resolved :
    CostCalculator.calcularCostesRecursivamente (CostCalculator.init
      [⟨"O1", "2024-01-01", "PT01", "LP1", 1, "SEM01", "LC1", 2, 2, none, false⟩,
       ⟨"O2", "2024-01-02", "SEM01", "LS1", 1, "MP01", "LC2", 3, 3, some 5, false⟩]) 6 =
    ([⟨"O1", "2024-01-01", "PT01", "LP1", 1, "SEM01", "LC1", 2, 2, some 15, true⟩,
      ⟨"O2", "2024-01-02", "SEM01", "LS1", 1, "MP01", "LC2", 3, 3, some 5, true⟩], 1) := by
  with_unfolding_all decide

/-- C6: each correction iteration of `process_outliers` recombines the clean
rows with the outlier rows, where every outlier row's value has been replaced
by the mean of the value column over the clean rows of its own group (nulls
skipped); an outlier row whose group has no clean row (or only null-valued
clean rows) receives the missing value `none`, since `omean` of the empty
fiber is `none`. -/
theorem paso_correccion_media_limpia (t : List ODRow) :
    OutliersManager.pasoCorreccion t =
      t.filter (fun r => !r.is_outlier) ++
        (t.filter (fun r => r.is_outlier)).map (fun r =>
          { r with valor := omean (((t.filter (fun x => !x.is_outlier)).filter
              (fun x => decide (x.grupo = r.grupo))).map (fun x => x.valor)) }) := by
  unfold OutliersManager.pasoCorreccion
  dsimp only
  congr 1
  apply List.map_congr_left
  intro r _
  rw [buscarMedia_mediasLimpias]

/-- C7: in `_detect_outliers_by_group` (both the `services` and the
`cleaning` copy), a group whose value column has no variance produces no
outlier: if the sample standard deviation is zero — and in particular for
every single-row group, where the sample standard deviation is undefined
(`NaN`) and every z-score comparison is false — every `is_outlier` flag of
the group is false. -/
theorem sin_varianza_sin_outliers (p : DatasetParams) (g : List ORow)
    (hne : g ≠ [])
    (h : (g.filterMap (fun r => r.valor)).length ≤ 1 ∨
      qvar (g.filterMap (fun r => r.valor)) = 0) :
    (OutliersManager.detectarGrupo p g).all (fun r => !r.is_outlier) = true := by
  unfold OutliersManager.detectarGrupo
  by_cases hc : 2 ≤ (g.filterMap (fun r => r.valor)).length ∧
      qvar (g.filterMap (fun r => r.valor)) = 0
  · rw [if_pos hc]
    apply List.all_eq_true.mpr
    intro x hx
    rcases List.mem_map.mp hx with ⟨r, _, hr⟩
    rw [← hr]
    rfl
  · rw [if_neg hc]
    apply List.all_eq_true.mpr
    intro x hx
    rcases List.mem_map.mp hx with ⟨r, _, hr⟩
    rw [← hr]
    cases hv : r.valor with
    | none => simp [hv]
    | some v =>
      simp only [hv]
      rcases Nat.lt_or_ge (g.filterMap (fun r => r.valor)).length 2 with hlt | hge
      · have hn : decide (2 ≤ (g.filterMap (fun r => r.valor)).length) = false := by
          simp only [decide_eq_false_iff_not]
          omega
        simp [hn]
      · have hv0 : qvar (g.filterMap (fun r => r.valor)) = 0 :=
          h.resolve_left (by omega)
        exact absurd ⟨hge, hv0⟩ hc
  

/-- C7, witness: a single-row group under the default parameters has no
outlier. -/
theorem sin_varianza_sin_outliers_witness :
    (OutliersManager.detectarGrupo ⟨some "v", some "g", 3, 5, 20⟩
      [⟨"A", some 5⟩]).all (fun r => !r.is_outlier) = true :=
  sin_varianza_sin_outliers ⟨some "v", some "g", 3, 5, 20⟩ [⟨"A", some 5⟩]
    (by simp) (Or.inl (by with_unfolding_all decide))

/-- C9, counterexample: `OutliersManager.__init__` tests the column names
with Python truthiness (`not params.outliers_value_column`), so a parameter
set in which both required column names are present but the value column name
is the empty string also raises the configuration error; the claim that
construction "does not fail for this reason when both are present" is false
for this parameter set. -/
theorem outliers_init_empty_string_cex :
    OutliersManager.inicializar []
        (⟨some "", some "componente", 3, 5, 20⟩ : DatasetParams) =
      Except.error "Los parámetros de outliers son requeridos" ∧
    (⟨some "", some "componente", 3, 5, 20⟩ : DatasetParams).outliers_value_column ≠ none ∧
    (⟨some "", some "componente", 3, 5, 20⟩ : DatasetParams).outliers_group_column ≠ none := by
  refine ⟨rfl, ?_, ?_⟩ <;> simp

/-- C9, amended: constructing the outliers engine fails with the
configuration error exactly when a required column name is `None` or the
empty string (Python falsiness); with both names non-empty strings the
constructor succeeds and stores the table.  The check runs in the
constructor, before any processing. -/
theorem outliers_init_error_iff (df : List ORow) (p : DatasetParams) :
    (OutliersManager.inicializar df p =
        Except.error "Los parámetros de outliers son requeridos" ↔
      (p.outliers_value_column = none ∨ p.outliers_value_column = some "" ∨
        p.outliers_group_column = none ∨ p.outliers_group_column = some "")) ∧
    (OutliersManager.inicializar df p = Except.ok df ∨
      OutliersManager.inicializar df p =
        Except.error "Los parámetros de outliers son requeridos") := by
  unfold OutliersManager.inicializar
  by_cases hb : (pyFalsy p.outliers_value_column || pyFalsy p.outliers_group_column) = true
  · rw [if_pos hb]
    rcases Bool.or_eq_true_iff.mp hb with h | h
    · rcases (pyFalsy_eq_true_iff _).mp h with h2 | h2 <;>
        exact ⟨by simp [h2], Or.inr rfl⟩
    · rcases (pyFalsy_eq_true_iff _).mp h with h2 | h2 <;>
        exact ⟨by simp [h2], Or.inr rfl⟩
  · rw [if_neg hb]
    have hv : ¬ (pyFalsy p.outliers_value_column = true) := by
      intro hc
      exact hb (by rw [hc]; rfl)
    have hg : ¬ (pyFalsy p.outliers_group_column = true) := by
      intro hc
      exact hb (by rw [hc, Bool.or_true])
    rw [pyFalsy_eq_true_iff] at hv hg
    constructor
    · constructor
      · intro hc
        exact absurd hc (by simp)
      · intro hc
        rcases hc with h | h | h | h
        · exact absurd (Or.inl h) hv
        · exact absurd (Or.inr h) hv
        · exact absurd (Or.inl h) hg
        · exact absurd (Or.inr h) hg
    · exact Or.inl rfl

/-- C10: whenever `_calcular_coste_producto` processes the product instance
`(articulo, lote_articulo)`, it writes the instance's total cost into
`coste_componente_unitario` of every row of the whole table whose
`componente` equals that `articulo` — the mask does not restrict to any
batch, and the assignment overwrites previously non-null values.
Consequently, when two batches of the same article are processed in
sequence, every consumer row of that article ends up holding the total cost
of the batch processed last. -/
theorem coste_producto_overwrites_consumers :
    (∀ (t : List FabRow) (a l : String),
      CostCalculator.calcularCosteProducto t a l =
        t.map (fun r =>
          if r.componente = a then
            { r with coste_componente_unitario := some (CostCalculator.costeTotal t a l),
                     flag_coste_calculado := true }
          else r)) ∧
    (∀ (t : List FabRow) (a l1 l2 : String),
      CostCalculator.calcularCosteProducto
          (CostCalculator.calcularCosteProducto t a l1) a l2 =
        t.map (fun r =>
          if r.componente = a then
            { r with coste_componente_unitario := some (CostCalculator.costeTotal
                (CostCalculator.calcularCosteProducto t a l1) a l2),
                     flag_coste_calculado := true }
          else r)) := by
  refine ⟨calcularCosteProducto_eq_map, ?_⟩
  intro t a l1 l2
  rw [calcularCosteProducto_eq_map (CostCalculator.calcularCosteProducto t a l1) a l2,
    calcularCosteProducto_eq_map t a l1, List.map_map]
  apply List.map_congr_left
  intro r _
  by_cases h : r.componente = a <;> simp [h]

/-- C3: the correction loop of `process_outliers` performs no further
replacement iteration once the detected outlier count `S` satisfies `S = 0`
(the outlier set is empty, so the body breaks before any replacement), or
`S ≤ outliers_min_threshold` (the `while` guard fails), or the iteration
budget is exhausted (`fuel = 0`); in each case the current table is returned
unchanged — even if outliers remain — the loop count never exceeds the
budget, and the caller-facing pipeline is this loop's table with the
auxiliary `z_score`/`is_outlier` columns stripped by `clean_columns`. -/
theorem process_outliers_stop_conditions (p : DatasetParams) (t : List ODRow) (fuel : Nat) :
    ((cuentaOutliers t : Int) ≤ p.outliers_min_threshold →
      OutliersManager.loop p fuel t = (t, 0, 0)) ∧
    (cuentaOutliers t = 0 → (OutliersManager.loop p fuel t).1 = t) ∧
    OutliersManager.loop p 0 t = (t, 0, 0) ∧
    (OutliersManager.loop p fuel t).2.1 ≤ fuel ∧
    (∀ df : List ORow,
      (OutliersManager.processOutliers df p).iteraciones ≤ p.outliers_max_iterations) ∧
    (∀ df : List ORow, OutliersManager.processAndClean df p =
      quitarColumnas (OutliersManager.loop p p.outliers_max_iterations
        (OutliersManager.detectar p df)).1) := by
  refine ⟨outLoop_stop p fuel t, outLoop_zero_outliers p fuel t, outLoop_zero p t,
    outLoop_le p fuel t, ?_, fun df => rfl⟩
  intro df
  exact outLoop_le p p.outliers_max_iterations (OutliersManager.detectar p df)

/-- C3, witness: with the default thresholds, a table with no outlier rows is
returned at once. -/
theorem process_outliers_stop_conditions_witness :
    OutliersManager.loop (⟨some "v", some "g", 3, 5, 20⟩ : DatasetParams) 2
        [⟨"A", some 10, false⟩] = ([⟨"A", some 10, false⟩], 0, 0) ∧
    (OutliersManager.loop (⟨some "v", some "g", 3, 5, 20⟩ : DatasetParams) 2
        [⟨"A", some 10, false⟩]).1 = [⟨"A", some 10, false⟩] := by
  have h := process_outliers_stop_conditions (⟨some "v", some "g", 3, 5, 20⟩ : DatasetParams)
    [⟨"A", some 10, false⟩] 2
  exact ⟨h.1 (by with_unfolding_all decide), h.2.1 (by with_unfolding_all decide)⟩

/-- C8: on a table in which the configured detection finds no outlier (and
with a non-negative minimum-outlier threshold, as configured everywhere in the
source), `process_outliers` followed by `clean_columns` returns the input
rows unchanged up to the group-wise reordering of `groupby` (a permutation of
the input — the spec states row order need not be preserved), the `while`
loop runs zero correction iterations, exactly one detection pass is
performed, and the summary reports zero remaining outliers. -/
theorem tabla_sin_outliers_una_pasada (df : List ORow) (p : DatasetParams)
    (hth : 0 ≤ p.outliers_min_threshold)
    (h0 : cuentaOutliers (OutliersManager.detectar p df) = 0) :
    List.Perm (OutliersManager.processAndClean df p) df ∧
    (OutliersManager.processOutliers df p).iteraciones = 0 ∧
    (OutliersManager.processOutliers df p).detecciones = 1 ∧
    (OutliersManager.processOutliers df p).summary.remaining_outliers = 0 := by
  have hstop : OutliersManager.loop p p.outliers_max_iterations
      (OutliersManager.detectar p df) = (OutliersManager.detectar p df, 0, 0) := by
    apply outLoop_stop
    rw [h0]
    exact_mod_cast hth
  refine ⟨?_, ?_, ?_, ?_⟩
  · show List.Perm (quitarColumnas (OutliersManager.loop p p.outliers_max_iterations
      (OutliersManager.detectar p df)).1) df
    rw [hstop]
    exact quitarColumnas_detectar_perm p df
  · show (OutliersManager.loop p p.outliers_max_iterations
      (OutliersManager.detectar p df)).2.1 = 0
    rw [hstop]
  · show (OutliersManager.loop p p.outliers_max_iterations
      (OutliersManager.detectar p df)).2.2 + 1 = 1
    rw [hstop]
  · show cuentaOutliers (OutliersManager.loop p p.outliers_max_iterations
      (OutliersManager.detectar p df)).1 = 0
    rw [hstop]
    exact h0

/-- C8, witness: a one-row table under the default parameters. -/
theorem tabla_sin_outliers_una_pasada_witness :
    List.Perm (OutliersManager.processAndClean [⟨"A", some 1⟩]
      (⟨some "v", some "g", 3, 5, 20⟩ : DatasetParams)) [⟨"A", some 1⟩] ∧
    (OutliersManager.processOutliers [⟨"A", some 1⟩]
      (⟨some "v", some "g", 3, 5, 20⟩ : DatasetParams)).iteraciones = 0 ∧
    (OutliersManager.processOutliers [⟨"A", some 1⟩]
      (⟨some "v", some "g", 3, 5, 20⟩ : DatasetParams)).detecciones = 1 := by
  have h := tabla_sin_outliers_una_pasada [⟨"A", some 1⟩]
    (⟨some "v", some "g", 3, 5, 20⟩ : DatasetParams)
    (by with_unfolding_all decide) (by with_unfolding_all decide)
  exact ⟨h.1, h.2.1, h.2.2.1⟩

/-- C1, counterexample: `generar_costes_fabricacion` aggregates
`coste_unitario` with `groupby(...).sum()`, and the pandas group sum skips
`NaN` terms instead of propagating them.  For an order with one null-cost
contribution (the `SEM01` row) and one resolved contribution
(`5 × 1 = 5`), the order's aggregated cost is the defined number `5` — the
null contribution is silently dropped, i.e. treated as zero — not the
null/undefined value the claim requires.  The warning flag is raised
(first component `true`), as the claim says. -/
theorem generar_contribucion_nula_cex :
    CostCalculator.generarCostesFabricacion
      [⟨"O1", "2024-01-01", "PT01", "LP1", 2, "SEM01", "LC1", 2, 4, none, false⟩,
       ⟨"O1", "2024-01-01", "PT01", "LP1", 2, "MP01", "LC2", 1, 2, some 5, true⟩] =
    (true, [⟨"O1", "2024-01-01", "PT01", 2, 5⟩]) := by
  with_unfolding_all decide

/-- C1, amended: when some row still has a null `coste_componente_unitario`,
the warning is flagged (warning-level, processing continues) and the
aggregation still proceeds for every order, but each order's aggregated cost
is the sum of its non-null contributions — a null contribution is skipped by
the pandas group sum, which is the same as treating it as zero (an order all
of whose contributions are null gets cost `0`). -/
theorem generar_omite_contribuciones_nulas (t : List FabRow)
    (h : ∃ r ∈ t, r.coste_componente_unitario = none) :
    (CostCalculator.generarCostesFabricacion t).1 = true ∧
    (∀ o ∈ (CostCalculator.generarCostesFabricacion t).2,
      o.coste_unitario = ((t.filter (fun r => decide (ordenKey r =
          (o.id_orden, o.fecha_fabricacion, o.articulo, o.unidades_fabricadas)))).map
        (fun r => (r.coste_componente_unitario.map
          (fun c => c * r.consumo_unitario)).getD 0)).sum) ∧
    (∀ r ∈ t, ∃ o ∈ (CostCalculator.generarCostesFabricacion t).2,
      (o.id_orden, o.fecha_fabricacion, o.articulo, o.unidades_fabricadas) = ordenKey r) := by
  refine ⟨?_, ?_, ?_⟩
  · show (t.any fun r => r.coste_componente_unitario.isNone) = true
    rcases h with ⟨r, hr, hnone⟩
    exact List.any_eq_true.mpr ⟨r, hr, by rw [hnone]; rfl⟩
  · intro o ho
    have ho2 : o ∈ (groupKeys ordenKeyLe (t.map ordenKey)).map (fun k =>
        ({ id_orden := k.1, fecha_fabricacion := k.2.1, articulo := k.2.2.1,
           unidades_fabricadas := k.2.2.2,
           coste_unitario := sumSkipna ((t.filter (fun r => decide (ordenKey r = k))).map
             (fun r => r.coste_componente_unitario.map
               (fun c => c * r.consumo_unitario))) } : CosteFabRow)) :=
      (mem_sortLe _ o _).mp ho
    rcases List.mem_map.mp ho2 with ⟨k, _, hko⟩
    rw [← hko]
    show sumSkipna ((t.filter (fun r => decide (ordenKey r = k))).map
      (fun r => r.coste_componente_unitario.map (fun c => c * r.consumo_unitario))) = _
    rw [sumSkipna_eq_getD, List.map_map]
    rfl
  · intro r hr
    have hkmem : ordenKey r ∈ groupKeys ordenKeyLe (t.map ordenKey) :=
      (mem_groupKeys _ _ _).mpr (List.mem_map_of_mem ordenKey hr)
    refine ⟨{
        id_orden := (ordenKey r).1,
        fecha_fabricacion := (ordenKey r).2.1,
        articulo := (ordenKey r).2.2.1,
        unidades_fabricadas := (ordenKey r).2.2.2,
        coste_unitario := sumSkipna ((t.filter
          (fun x => decide (ordenKey x = ordenKey r))).map
          (fun x => x.coste_componente_unitario.map
            (fun c => c * x.consumo_unitario))) }, ?_, rfl⟩
    exact (mem_sortLe _ _ _).mpr (List.mem_map_of_mem _ hkmem)

/-- C1, witness for the amended theorem: the two-row order with one null
contribution raises the warning flag. -/
theorem generar_omite_contribuciones_nulas_witness :
    (CostCalculator.generarCostesFabricacion
      [⟨"O1", "2024-01-01", "PT01", "LP1", 2, "SEM01", "LC1", 2, 4, none, false⟩,
       ⟨"O1", "2024-01-01", "PT01", "LP1", 2, "MP01", "LC2", 1, 2, some 5, true⟩]).1 = true :=
  (generar_omite_contribuciones_nulas _
    ⟨⟨"O1", "2024-01-01", "PT01", "LP1", 2, "SEM01", "LC1", 2, 4, none, false⟩,
      by simp, rfl⟩).1

/-- C5: `calcular_costes_recursivamente` is a bounded loop that never
raises: it always returns a (possibly partial) table.  A component whose
dependency chain is deeper than `max_iteraciones` — formalised as: even
`max_iteraciones` full propagation rounds leave the row's cost null, which is
the operational meaning of a dependency depth exceeding the budget, since
each round resolves exactly one further level — is still null in the
returned table (the loop executes at most `max_iteraciones` bodies, and
possibly fewer due to its early-stop checks, which can only leave more rows
null), the count of unresolved records is therefore non-zero, and the final
summary reports exactly that non-zero count. -/
theorem cadena_profunda_queda_sin_resolver (t : List FabRow) (m i : Nat)
    (h : costeNullAt (CostCalculator.iteracion^[m] t) i = true) :
    costeNullAt (CostCalculator.calcularCostesRecursivamente t m).1 i = true ∧
    0 < countNulos (CostCalculator.calcularCostesRecursivamente t m).1 ∧
    (CostCalculator.resumenFinal (CostCalculator.calcularCostesRecursivamente t m).1).sinCoste =
      countNulos (CostCalculator.calcularCostesRecursivamente t m).1 ∧
    0 < (CostCalculator.resumenFinal
      (CostCalculator.calcularCostesRecursivamente t m).1).sinCoste ∧
    (CostCalculator.calcularCostesRecursivamente t m).2 ≤ m := by
  have hspec := loop_iterate m none t
  have hle : (CostCalculator.calcularCostesRecursivamente t m).2 ≤ m := hspec.2
  have hnull : costeNullAt (CostCalculator.calcularCostesRecursivamente t m).1 i = true := by
    show costeNullAt (CostCalculator.loop m none t).1 i = true
    rw [hspec.1]
    exact costeNullAt_iterate_mono t i m _ hspec.2 h
  have hpos := countNulos_pos_of_null _ i hnull
  exact ⟨hnull, hpos, rfl, hpos, hle⟩

/-- C5, witness: a three-level chain (`PT01` needs `SEM02`, `SEM02` needs
`SEM03`, `SEM03` is computable) run with `max_iteraciones = 1` leaves the top
row unresolved. -/
theorem cadena_profunda_queda_sin_resolver_witness :
    costeNullAt (CostCalculator.calcularCostesRecursivamente (CostCalculator.init
      [⟨"O1", "d1", "PT01", "L1", 1, "SEM02", "LC1", 2, 2, none, false⟩,
       ⟨"O2", "d2", "SEM02", "L2", 1, "SEM03", "LC2", 1, 1, none, false⟩,
       ⟨"O3", "d3", "SEM03", "L3", 1, "MP01", "LC3", 3, 3, some 5, false⟩]) 1).1 0 = true ∧
    0 < countNulos (CostCalculator.calcularCostesRecursivamente (CostCalculator.init
      [⟨"O1", "d1", "PT01", "L1", 1, "SEM02", "LC1", 2, 2, none, false⟩,
       ⟨"O2", "d2", "SEM02", "L2", 1, "SEM03", "LC2", 1, 1, none, false⟩,
       ⟨"O3", "d3", "SEM03", "L3", 1, "MP01", "LC3", 3, 3, some 5, false⟩]) 1).1 := by
  have h := cadena_profunda_queda_sin_resolver (CostCalculator.init
      [⟨"O1", "d1", "PT01", "L1", 1, "SEM02", "LC1", 2, 2, none, false⟩,
       ⟨"O2", "d2", "SEM02", "L2", 1, "SEM03", "LC2", 1, 1, none, false⟩,
       ⟨"O3", "d3", "SEM03", "L3", 1, "MP01", "LC3", 3, 3, some 5, false⟩]) 1 0
    (by with_unfolding_all decide)
  exact ⟨h.1, h.2.1⟩
